import Mathlib

/-!
# Verification of the tcb-calculator bilirubin risk engine

Shallow embedding of `bilirubinCalculator.ts` (the calculation engine of the
`tcb-calculator` repository) in Lean 4, together with theorems settling the
specification claims about it.

The repository contains two copies of `bilirubinCalculator.ts`.  The copy
embedded here is the one whose Maisels thresholds are `[min, max]` ranges with
an inclusive `WITHIN` status; it is the copy that agrees with `types.ts`
(`threshold: number | string`, status `WITHIN`), with the rendering code in
`App.tsx` (which colour-codes `WITHIN`) and with the repository's unit-test
suite.  The other copy (an older revision with single-number Maisels
thresholds) is dead in the current application.  All functions other than the
Maisels lookup are textually identical in the two copies.

JavaScript `number` is modelled by `ℚ`; every value the engine manipulates is
produced from decimal literals and field operations, so rational arithmetic is
exact for them.
-/

/-- JavaScript-style numeric truthiness/formatting helpers use plain `ℚ`. -/
abbrev DataPoints := List (ℚ × ℚ)

/-- `BhutaniRiskZone` enum from `types.ts`. -/
inductive BhutaniRiskZone where
  | high
  | highIntermediate
  | lowIntermediate
  | low
  | notApplicable
deriving DecidableEq, Repr

/-- `ThresholdStatus` union from `types.ts`: `'ABOVE' | 'BELOW' | 'WITHIN' | 'N/A'`. -/
inductive ThresholdStatus where
  | above
  | below
  | within
  | na
deriving DecidableEq, Repr

/-- `threshold: number | string` from `types.ts`. -/
inductive ThresholdValue where
  | num (q : ℚ)
  | str (s : String)
deriving DecidableEq, Repr

/-- `ThresholdResult` record from `types.ts`. -/
structure ThresholdResult where
  status : ThresholdStatus
  threshold : ThresholdValue
deriving DecidableEq, Repr

/-- The pair of `ThresholdResult`s returned by `getAapThresholds` /
`getMaiselsThresholds`. -/
structure TherapyThresholds where
  phototherapy : ThresholdResult
  exchangeTransfusion : ThresholdResult
deriving DecidableEq, Repr

/-- `CalculationInput` record from `types.ts`. -/
structure CalculationInput where
  birthDateTime : String
  measurementDateTime : String
  tcbValue : ℚ
  gestationalWeeks : ℚ
  gestationalDays : ℚ
  hasRiskFactors : Bool
deriving DecidableEq, Repr

/-- `CalculationResult` record from `types.ts`. -/
structure CalculationResult where
  dob : String
  tob : String
  hol : ℚ
  tcb : ℚ
  aog : String
  bhutaniZone : BhutaniRiskZone
  phototherapy : ThresholdResult
  exchangeTransfusion : ThresholdResult
deriving DecidableEq, Repr

/-! ## Reference tables (`bhutaniData`, `aapPlData`, `aapDvetData`, `maiselsData`) -/

def bhutaniData.low : DataPoints :=
  [(12, 3.5), (24, 5.5), (36, 7.5), (48, 8.5), (60, 9), (96, 11.5), (144, 12.5)]

def bhutaniData.lowIntermediate : DataPoints :=
  [(12, 5), (24, 7.5), (36, 9.5), (48, 11), (60, 12), (96, 13.5), (144, 15)]

def bhutaniData.highIntermediate : DataPoints :=
  [(12, 6.5), (24, 9.5), (36, 12), (48, 13.5), (60, 15), (96, 17), (144, 17.5)]

def aapPlData.lowerRisk : DataPoints :=
  [(0, 5), (24, 12), (48, 15), (72, 18), (96, 20), (120, 21), (168, 21.5)]

def aapPlData.mediumRisk : DataPoints :=
  [(0, 4), (24, 10), (48, 13), (72, 15), (96, 17), (120, 18), (168, 18.5)]

def aapPlData.higherRisk : DataPoints :=
  [(0, 3), (24, 8), (48, 11), (72, 13), (96, 14.5), (120, 15.5), (168, 16)]

def aapDvetData.lowerRisk : DataPoints :=
  [(0, 12), (24, 19), (48, 22), (72, 24), (96, 25), (168, 25)]

def aapDvetData.mediumRisk : DataPoints :=
  [(0, 10), (24, 17), (48, 19), (72, 21), (96, 22.5), (168, 23)]

def aapDvetData.higherRisk : DataPoints :=
  [(0, 8), (24, 15), (48, 17), (72, 18.5), (96, 20), (168, 20.5)]

/-- One band of the Maisels table: phototherapy range and exchange-transfusion
range, each `[min, max]`. -/
structure MaiselsBand where
  pl : ℚ × ℚ
  dvet : ℚ × ℚ
deriving DecidableEq, Repr

/-- `maiselsData[28]`: the band used for gestational age < 28 0/7 weeks. -/
def maiselsData28 : MaiselsBand := ⟨(5, 6), (11, 14)⟩

/-- `maiselsData[29]`: 28 0/7 – 29 6/7 weeks. -/
def maiselsData29 : MaiselsBand := ⟨(6, 8), (12, 14)⟩

/-- `maiselsData[31]`: 30 0/7 – 31 6/7 weeks. -/
def maiselsData31 : MaiselsBand := ⟨(8, 10), (13, 16)⟩

/-- `maiselsData[33]`: 32 0/7 – 33 6/7 weeks. -/
def maiselsData33 : MaiselsBand := ⟨(10, 12), (15, 18)⟩

/-- `maiselsData[34]`: 34 0/7 – 34 6/7 weeks (and, in the code path, anything ≥ 34). -/
def maiselsData34 : MaiselsBand := ⟨(12, 14), (17, 19)⟩

/-! ## Interpolation -/

/-- The final segment step of `linearInterpolate` (source lines
`if (x1 === x0) return y0; return y0 + (x - x0) * (y1 - y0) / (x1 - x0);`). -/
def interpolateSegment (p0 p1 : ℚ × ℚ) (x : ℚ) : ℚ :=
  if p1.1 = p0.1 then p0.2
  else p0.2 + (x - p0.1) * (p1.2 - p0.2) / (p1.1 - p0.1)

/-- `linearInterpolate(points, x)` from `bilirubinCalculator.ts`.

In the source, `p1 = points.find(p => p[0] >= x) || points[last]` and
`p0 = points[points.lastIndexOf(p1) - 1] || points[0]`.  `lastIndexOf` compares
by object identity and `p1` is the element `find` returned, so
`lastIndexOf(p1)` is the index found by `find` (`points.length - 1` if `find`
returned nothing and the fallback hit), and index `-1` falls back to
`points[0]`; `ℕ` truncated subtraction gives that fallback directly.  The
`[]` case is inert (JavaScript would fault reading `points[0][0]`); no caller
and no claim reaches it. -/
def linearInterpolate : List (ℚ × ℚ) → ℚ → ℚ
  | [], _ => 0
  | p :: tl, x =>
    let pts := p :: tl
    let pLast := tl.getLastD p
    if x ≤ p.1 then p.2
    else if pLast.1 ≤ x then pLast.2
    else
      let i := pts.findIdx (fun q => decide (x ≤ q.1))
      let i1 := if i < pts.length then i else pts.length - 1
      let p1 := pts.getD i1 p
      let p0 := pts.getD (i1 - 1) p
      interpolateSegment p0 p1 x

/-! ## Zone and threshold functions -/

/-- `getBhutaniZone(hol, tcb)` from `bilirubinCalculator.ts`. -/
def getBhutaniZone (hol tcb : ℚ) : BhutaniRiskZone :=
  if 144 < hol then .notApplicable
  else if linearInterpolate bhutaniData.highIntermediate hol < tcb then .high
  else if linearInterpolate bhutaniData.lowIntermediate hol < tcb then .highIntermediate
  else if linearInterpolate bhutaniData.low hol < tcb then .lowIntermediate
  else .low

/-- JavaScript `toFixed(2)` followed by `parseFloat`: round to 2 decimal
places, ties toward the larger value. -/
def toFixed2 (q : ℚ) : ℚ := (⌊q * 100 + 1 / 2⌋ : ℚ) / 100

/-- JavaScript `toFixed(1)` followed by `parseFloat`: round to 1 decimal
place, ties toward the larger value. -/
def toFixed1 (q : ℚ) : ℚ := (⌊q * 10 + 1 / 2⌋ : ℚ) / 10

/-- JavaScript template-literal rendering `${n}` of the (integral) numbers that
appear in the Maisels table and the gestational-age display. -/
def fmtNum (q : ℚ) : String := if q.den = 1 then toString q.num else toString q

/-- `getAapThresholds(hol, aog, hasRiskFactors, tcb)` from
`bilirubinCalculator.ts`. -/
def getAapThresholds (hol aog : ℚ) (hasRiskFactors : Bool) (tcb : ℚ) : TherapyThresholds :=
  let plCurve : DataPoints :=
    if 38 ≤ aog then
      if hasRiskFactors then aapPlData.mediumRisk else aapPlData.lowerRisk
    else
      if hasRiskFactors then aapPlData.higherRisk else aapPlData.mediumRisk
  let dvetCurve : DataPoints :=
    if 38 ≤ aog then
      if hasRiskFactors then aapDvetData.mediumRisk else aapDvetData.lowerRisk
    else
      if hasRiskFactors then aapDvetData.higherRisk else aapDvetData.mediumRisk
  let plThreshold := linearInterpolate plCurve hol
  let dvetThreshold := linearInterpolate dvetCurve hol
  { phototherapy :=
      { status := if plThreshold ≤ tcb then .above else .below
        threshold := .num (toFixed2 plThreshold) }
    exchangeTransfusion :=
      { status := if dvetThreshold ≤ tcb then .above else .below
        threshold := .num (toFixed2 dvetThreshold) } }

/-- The `getStatus` helper inside `getMaiselsThresholds`. -/
def getStatus (value vmin vmax : ℚ) : ThresholdStatus :=
  if vmax < value then .above
  else if value < vmin then .below
  else .within

/-- The `"min-max"` range string built by `getMaiselsThresholds`. -/
def mkRangeStr (a b : ℚ) : String := fmtNum a ++ "-" ++ fmtNum b

/-- `getMaiselsThresholds(aog, tcb)` from `bilirubinCalculator.ts` (range
version, see the header comment). -/
def getMaiselsThresholds (aog tcb : ℚ) : TherapyThresholds :=
  let thresholds :=
    if aog < 28 then maiselsData28
    else if aog < 30 then maiselsData29
    else if aog < 32 then maiselsData31
    else if aog < 34 then maiselsData33
    else maiselsData34
  { phototherapy :=
      { status := getStatus tcb thresholds.pl.1 thresholds.pl.2
        threshold := .str (mkRangeStr thresholds.pl.1 thresholds.pl.2) }
    exchangeTransfusion :=
      { status := getStatus tcb thresholds.dvet.1 thresholds.dvet.2
        threshold := .str (mkRangeStr thresholds.dvet.1 thresholds.dvet.2) } }

/-! ## Timestamp normalization and parsing -/

/-- JavaScript `\s` whitespace (restricted to the ASCII whitespace the inputs
can contain). -/
def wsChar (c : Char) : Bool := c = ' ' ∨ c = '\t' ∨ c = '\n' ∨ c = '\r'

/-- The single (non-global) replacement `.replace(/\s+-\s+|\s+/, 'T')`:
the leftmost match — which starts at the first whitespace character — of
either "whitespace run, `-`, whitespace run" or "whitespace run" is replaced
by one `T`; everything after the match is kept verbatim. -/
def replaceFirstSep : List Char → List Char
  | [] => []
  | c :: cs =>
    if wsChar c then
      let rest := List.dropWhile wsChar (c :: cs)
      match rest with
      | '-' :: rest2 =>
        match rest2 with
        | d :: _ =>
          if wsChar d then 'T' :: List.dropWhile wsChar rest2 else 'T' :: rest
        | [] => 'T' :: rest
      | _ => 'T' :: rest
    else c :: replaceFirstSep cs

/-- `formatDateTime(dt)` from `calculateBilirubinRisk`:
`dt.replace(/\//g, '-').replace(/\s+-\s+|\s+/, 'T')`. -/
def formatDateTime (dt : String) : String :=
  String.mk (replaceFirstSep (dt.data.map fun c => if c = '/' then '-' else c))

/-- Leap-year rule of the proleptic Gregorian calendar. -/
def isLeap (y : ℕ) : Bool := (y % 4 = 0 ∧ y % 100 ≠ 0) ∨ y % 400 = 0

/-- Number of days in month `m` of year `y`. -/
def daysInMonth (y m : ℕ) : ℕ :=
  if m = 2 then (if isLeap y then 29 else 28)
  else if m = 4 ∨ m = 6 ∨ m = 9 ∨ m = 11 then 30
  else 31

/-- Day count of the civil date `y-m-d` from day 0 = `0000-03-01`
(standard era-based civil-calendar arithmetic). -/
def daysFromCivil (y m d : ℕ) : ℕ :=
  let y1 := if m ≤ 2 then y - 1 else y
  let era := y1 / 400
  let yoe := y1 % 400
  let mp := (m + 9) % 12
  let doy := (153 * mp + 2) / 5 + d - 1
  let doe := yoe * 365 + yoe / 4 - yoe / 100 + doy
  era * 146097 + doe

/-- Decimal value of an ASCII digit. -/
def digitVal (c : Char) : ℕ := c.toNat - 48

/-- Modelled from the spec: the JavaScript `new Date(...)` parse of the
normalized timestamp, which is not part of the repository.  Per the spec,
after normalization a timestamp must have the shape `YYYY-MM-DDThh:mm` and
denote a valid calendar date-time; the parsed instant is returned in minutes
(the granularity of the input format) since a fixed epoch, as an absolute
instant — only differences of instants are used by the engine. -/
def parseDateTime (s : String) : Option ℕ :=
  match s.data with
  | [y1, y2, y3, y4, '-', m1, m2, '-', d1, d2, 'T', h1, h2, ':', n1, n2] =>
    if (([y1, y2, y3, y4, m1, m2, d1, d2, h1, h2, n1, n2].all Char.isDigit) : Bool) then
      let y := 1000 * digitVal y1 + 100 * digitVal y2 + 10 * digitVal y3 + digitVal y4
      let mo := 10 * digitVal m1 + digitVal m2
      let d := 10 * digitVal d1 + digitVal d2
      let h := 10 * digitVal h1 + digitVal h2
      let mi := 10 * digitVal n1 + digitVal n2
      if 1 ≤ mo ∧ mo ≤ 12 ∧ 1 ≤ d ∧ d ≤ daysInMonth y mo ∧ h ≤ 23 ∧ mi ≤ 59 then
        some (1440 * daysFromCivil y mo d + 60 * h + mi)
      else none
    else none
  | _ => none

/-- Modelled from the spec: `birthDate.toLocaleDateString()` (a platform
locale function, not repository code).  The spec fixes only that it is a pure
rendering of the parsed birth instant's calendar date; we render the day
number. -/
def toLocaleDateString (instant : ℕ) : String := "day " ++ toString (instant / 1440)

/-- Modelled from the spec: `birthDate.toLocaleTimeString()`; a pure rendering
of the parsed birth instant's time of day. -/
def toLocaleTimeString (instant : ℕ) : String := "minute " ++ toString (instant % 1440)

/-! ## The engine -/

/-- The derived quantities and result-record assembly of
`calculateBilirubinRisk` on the success path, given the two parsed instants
(in minutes).  `hol` is the instant difference converted to hours — the
source divides a millisecond difference by `1000 * 60 * 60`, which for
minute-granularity instants is a division of the minute difference by 60. -/
def assembleResult (input : CalculationInput) (birthDate measurementDate : ℕ) :
    CalculationResult :=
  let hol : ℚ := ((measurementDate : ℚ) - (birthDate : ℚ)) / 60
  let aogDecimal := input.gestationalWeeks + input.gestationalDays / 7
  let bhutaniZone :=
    if aogDecimal < 35 then BhutaniRiskZone.notApplicable
    else getBhutaniZone hol input.tcbValue
  let therapyThresholds :=
    if 35 ≤ aogDecimal then
      getAapThresholds hol aogDecimal input.hasRiskFactors input.tcbValue
    else getMaiselsThresholds aogDecimal input.tcbValue
  { dob := toLocaleDateString birthDate
    tob := toLocaleTimeString birthDate
    hol := toFixed1 hol
    tcb := input.tcbValue
    aog := fmtNum input.gestationalWeeks ++ "w " ++ fmtNum input.gestationalDays ++ "d"
    bhutaniZone := bhutaniZone
    phototherapy := therapyThresholds.phototherapy
    exchangeTransfusion := therapyThresholds.exchangeTransfusion }

/-- `calculateBilirubinRisk(input)` from `bilirubinCalculator.ts`.
JavaScript falsiness of the guarded fields: a string is falsy iff empty, a
number iff zero (`NaN`, not being a rational, is outside the model). -/
def calculateBilirubinRisk (input : CalculationInput) : Option CalculationResult :=
  if input.birthDateTime = "" ∨ input.measurementDateTime = "" ∨
      input.tcbValue = 0 ∨ input.gestationalWeeks = 0 then
    none
  else
    match parseDateTime (formatDateTime input.birthDateTime),
          parseDateTime (formatDateTime input.measurementDateTime) with
    | some birthDate, some measurementDate =>
      if measurementDate ≤ birthDate then none
      else some (assembleResult input birthDate measurementDate)
    | _, _ => none

/-! ## Interpolation lemmas -/

theorem interp_head (p : ℚ × ℚ) (tl : List (ℚ × ℚ)) (x : ℚ) (h : x ≤ p.1) :
    linearInterpolate (p :: tl) x = p.2 := by
  simp only [linearInterpolate]
  rw [if_pos h]

theorem interp_last (p : ℚ × ℚ) (tl : List (ℚ × ℚ)) (x : ℚ)
    (h1 : ¬ x ≤ p.1) (h2 : (tl.getLastD p).1 ≤ x) :
    linearInterpolate (p :: tl) x = (tl.getLastD p).2 := by
  simp only [linearInterpolate]
  rw [if_neg h1, if_pos h2]

theorem interp_single (p : ℚ × ℚ) (x : ℚ) : linearInterpolate [p] x = p.2 := by
  by_cases h : x ≤ p.1
  · exact interp_head p [] x h
  · exact interp_last p [] x h (le_of_not_le h)

theorem interp_cons₂ (p q : ℚ × ℚ) (tl : List (ℚ × ℚ)) (x : ℚ)
    (h1 : p.1 < x) (h2 : x < (((q :: tl)).getLastD p).1) :
    linearInterpolate (p :: q :: tl) x =
      if x ≤ q.1 then interpolateSegment p q x else linearInterpolate (q :: tl) x := by
  have hg1 : ¬ x ≤ p.1 := not_le.mpr h1
  have hL1 : ((q :: tl)).getLastD p = tl.getLastD q := List.getLastD_cons p q tl
  rw [hL1] at h2
  have hg2 : ¬ (tl.getLastD q).1 ≤ x := not_le.mpr h2
  by_cases hq : x ≤ q.1
  · -- right bracket is q (index 1), left bracket is p (index 0)
    have hi : List.findIdx (fun r : ℚ × ℚ => decide (x ≤ r.1)) (p :: q :: tl) = 1 := by
      rw [List.findIdx_cons, decide_eq_false hg1, cond_false,
        List.findIdx_cons, decide_eq_true hq, cond_true]
    simp only [linearInterpolate]
    rw [if_neg hg1]
    rw [show (q :: tl).getLastD p = tl.getLastD q from List.getLastD_cons p q tl]
    rw [if_neg hg2, hi]
    have hlen : (1 : ℕ) < (p :: q :: tl).length := by simp
    rw [if_pos hlen, if_pos hq]
    norm_num [List.getD_cons_succ, List.getD_cons_zero]
  · -- recurse into the tail
    have hqlt : q.1 < x := not_le.mp hq
    have htl : tl ≠ [] := by
      intro h
      subst h
      simp only [List.getLastD_nil] at h2
      exact absurd h2 (not_lt.mpr (le_of_lt hqlt))
    obtain ⟨r, tl', rfl⟩ := List.exists_cons_of_ne_nil htl
    -- the last element satisfies the predicate
    have hlastmem : (r :: tl').getLastD q ∈ (r :: tl') := by
      rw [List.getLastD_eq_getLast?, List.getLast?_eq_getLast _ (by simp)]
      exact List.getLast_mem _
    have hmem : ∃ a ∈ (r :: tl'), (fun s : ℚ × ℚ => decide (x ≤ s.1)) a = true := by
      refine ⟨(r :: tl').getLastD q, hlastmem, ?_⟩
      simp only [decide_eq_true_eq]
      exact le_of_lt h2
    have hk : List.findIdx (fun s : ℚ × ℚ => decide (x ≤ s.1)) (r :: tl') < (r :: tl').length :=
      List.findIdx_lt_length_of_exists hmem
    set k := List.findIdx (fun s : ℚ × ℚ => decide (x ≤ s.1)) (r :: tl') with hkdef
    have hiL : List.findIdx (fun s : ℚ × ℚ => decide (x ≤ s.1)) (p :: q :: r :: tl') = k + 2 := by
      rw [List.findIdx_cons, decide_eq_false hg1, cond_false,
        List.findIdx_cons, decide_eq_false hq, cond_false]
    have hiR : List.findIdx (fun s : ℚ × ℚ => decide (x ≤ s.1)) (q :: r :: tl') = k + 1 := by
      rw [List.findIdx_cons, decide_eq_false hq, cond_false]
    have hg2n : ¬ (tl'.getLastD r).1 ≤ x := by
      simp only [List.getLastD_cons] at hg2
      exact hg2
    have hkQ : k < (q :: r :: tl').length := by
      simp only [List.length_cons] at hk ⊢
      omega
    have hk1Q : k + 1 < (q :: r :: tl').length := by
      simp only [List.length_cons] at hk ⊢
      omega
    have hlenL : k + 2 < (p :: q :: r :: tl').length := by
      simp only [List.length_cons] at hk ⊢
      omega
    have eL : linearInterpolate (p :: q :: r :: tl') x =
        interpolateSegment ((q :: r :: tl').get ⟨k, hkQ⟩) ((q :: r :: tl').get ⟨k + 1, hk1Q⟩) x := by
      simp only [linearInterpolate]
      rw [if_neg hg1]
      simp only [List.getLastD_cons]
      rw [if_neg hg2n, hiL, if_pos hlenL]
      have e1 : (p :: q :: r :: tl').getD (k + 2) p = (q :: r :: tl').getD (k + 1) p := by
        rw [List.getD_cons_succ]
      have e2 : (p :: q :: r :: tl').getD (k + 2 - 1) p = (q :: r :: tl').getD k p := by
        have : k + 2 - 1 = k + 1 := by omega
        rw [this, List.getD_cons_succ]
      rw [e1, e2, List.getD_eq_getElem _ _ hk1Q, List.getD_eq_getElem _ _ hkQ]
      simp [List.get_eq_getElem]
    have eR : linearInterpolate (q :: r :: tl') x =
        interpolateSegment ((q :: r :: tl').get ⟨k, hkQ⟩) ((q :: r :: tl').get ⟨k + 1, hk1Q⟩) x := by
      simp only [linearInterpolate]
      rw [if_neg hq]
      simp only [List.getLastD_cons]
      rw [if_neg hg2n, hiR, if_pos hk1Q]
      have e2 : k + 1 - 1 = k := by omega
      rw [e2, List.getD_eq_getElem _ _ hk1Q, List.getD_eq_getElem _ _ hkQ]
      simp [List.get_eq_getElem]
    rw [if_neg hq, eL, eR]

/-- Convex-combination form of the interpolation segment. -/
theorem interpolateSegment_eq (p0 p1 : ℚ × ℚ) (x : ℚ) (h : p0.1 < p1.1) :
    interpolateSegment p0 p1 x =
      p0.2 + (x - p0.1) / (p1.1 - p0.1) * (p1.2 - p0.2) := by
  rw [interpolateSegment, if_neg (ne_of_gt h)]
  ring

/-- At the right endpoint the segment returns the right point's y. -/
theorem interpolateSegment_right (p0 p1 : ℚ × ℚ) (h : p0.1 < p1.1) :
    interpolateSegment p0 p1 p1.1 = p1.2 := by
  rw [interpolateSegment_eq p0 p1 p1.1 h]
  have hd : p1.1 - p0.1 ≠ 0 := by linarith
  field_simp

/-- A non-decreasing segment stays at or above its left y over the bracket. -/
theorem interpolateSegment_lb (p0 p1 : ℚ × ℚ) (x : ℚ) (h : p0.1 < p1.1)
    (hy : p0.2 ≤ p1.2) (hx : p0.1 ≤ x) :
    p0.2 ≤ interpolateSegment p0 p1 x := by
  rw [interpolateSegment_eq p0 p1 x h]
  have hd : (0:ℚ) < p1.1 - p0.1 := by linarith
  have ht : 0 ≤ (x - p0.1) / (p1.1 - p0.1) := div_nonneg (by linarith) (le_of_lt hd)
  nlinarith [mul_nonneg ht (by linarith : (0:ℚ) ≤ p1.2 - p0.2)]

/-- A non-decreasing segment stays at or below its right y over the bracket. -/
theorem interpolateSegment_ub (p0 p1 : ℚ × ℚ) (x : ℚ) (h : p0.1 < p1.1)
    (hy : p0.2 ≤ p1.2) (hx : x ≤ p1.1) :
    interpolateSegment p0 p1 x ≤ p1.2 := by
  rw [interpolateSegment_eq p0 p1 x h]
  have hd : (0:ℚ) < p1.1 - p0.1 := by linarith
  have ht : (x - p0.1) / (p1.1 - p0.1) ≤ 1 := by
    rw [div_le_one hd]
    linarith
  nlinarith [mul_nonneg (by linarith : (0:ℚ) ≤ 1 - (x - p0.1) / (p1.1 - p0.1))
    (by linarith : (0:ℚ) ≤ p1.2 - p0.2)]

/-- A non-decreasing segment is monotone in the query. -/
theorem interpolateSegment_mono (p0 p1 : ℚ × ℚ) {x1 x2 : ℚ} (h : p0.1 < p1.1)
    (hy : p0.2 ≤ p1.2) (hx : x1 ≤ x2) :
    interpolateSegment p0 p1 x1 ≤ interpolateSegment p0 p1 x2 := by
  rw [interpolateSegment_eq p0 p1 x1 h, interpolateSegment_eq p0 p1 x2 h]
  have hd : (0:ℚ) < p1.1 - p0.1 := by linarith
  have ht : (x1 - p0.1) / (p1.1 - p0.1) ≤ (x2 - p0.1) / (p1.1 - p0.1) := by
    gcongr
  nlinarith [mul_le_mul_of_nonneg_right ht (by linarith : (0:ℚ) ≤ p1.2 - p0.2)]

/-- Strict comparison of two segments over the same x-bracket with strictly
smaller y values. -/
theorem interpolateSegment_strict (p0 p1 q0 q1 : ℚ × ℚ) (x : ℚ)
    (hx0 : p0.1 = q0.1) (hx1 : p1.1 = q1.1) (h : p0.1 < p1.1)
    (hy0 : p0.2 < q0.2) (hy1 : p1.2 < q1.2)
    (hxl : p0.1 < x) (hxr : x ≤ p1.1) :
    interpolateSegment p0 p1 x < interpolateSegment q0 q1 x := by
  have h' : q0.1 < q1.1 := by rw [← hx0, ← hx1]; exact h
  rw [interpolateSegment_eq p0 p1 x h, interpolateSegment_eq q0 q1 x h']
  rw [← hx0, ← hx1]
  have hd : (0:ℚ) < p1.1 - p0.1 := by linarith
  set t := (x - p0.1) / (p1.1 - p0.1) with htdef
  have ht0 : 0 < t := div_pos (by linarith) hd
  have ht1 : t ≤ 1 := by
    rw [htdef, div_le_one hd]
    linarith
  nlinarith [mul_lt_mul_of_pos_left (sub_lt_sub hy1 hy0) ht0,
    mul_nonneg (by linarith : (0:ℚ) ≤ 1 - t) (by linarith : (0:ℚ) ≤ q0.2 - p0.2)]

/-- `getLastD` over a cons cell is the `getLast` of the whole list. -/
theorem getLastD_cons_eq_getLast (p : ℚ × ℚ) (tl : List (ℚ × ℚ)) :
    tl.getLastD p = (p :: tl).getLast (List.cons_ne_nil p tl) := by
  cases tl with
  | nil => simp
  | cons a l =>
    rw [List.getLastD_eq_getLast?, List.getLast?_eq_getLast (a :: l) (by simp),
      Option.getD_some]
    exact (List.getLast_cons (by simp)).symm

/-- In-range queries are resolved by the unique consecutive bracketing pair:
the interpolation result is the segment between the first point whose x is ≥
the query and its immediate predecessor. -/
theorem interp_bracket : ∀ (l : List (ℚ × ℚ)) (x : ℚ) (hne : l ≠ [])
    (_hhead : (l.head hne).1 < x) (_hlast : x < (l.getLast hne).1),
    ∃ (i : ℕ) (hi1 : i + 1 < l.length),
      (l.get ⟨i, Nat.lt_of_succ_lt hi1⟩).1 < x ∧ x ≤ (l.get ⟨i + 1, hi1⟩).1 ∧
      linearInterpolate l x =
        interpolateSegment (l.get ⟨i, Nat.lt_of_succ_lt hi1⟩) (l.get ⟨i + 1, hi1⟩) x := by
  intro l
  induction l with
  | nil => intro x hne; exact absurd rfl hne
  | cons p tl ih =>
    intro x hne hhead hlast
    cases tl with
    | nil =>
      rw [List.head_cons] at hhead
      rw [List.getLast_singleton] at hlast
      exact absurd (lt_trans hhead hlast) (lt_irrefl _)
    | cons q tl' =>
      rw [List.head_cons] at hhead
      rw [List.getLast_cons (by simp)] at hlast
      have h2 : x < ((q :: tl').getLastD p).1 := by
        rw [getLastD_cons_eq_getLast p (q :: tl'), List.getLast_cons (by simp)]
        exact hlast
      have hstep := interp_cons₂ p q tl' x hhead h2
      by_cases hq : x ≤ q.1
      · refine ⟨0, by simp, ?_, ?_, ?_⟩
        · simpa using hhead
        · simpa using hq
        · rw [hstep, if_pos hq]
          congr 1
      · have hq' : q.1 < x := not_le.mp hq
        obtain ⟨i, hi1, hl, hr, hval⟩ :=
          ih x (by simp) (by rw [List.head_cons]; exact hq') hlast
        refine ⟨i + 1, by simpa using Nat.succ_lt_succ hi1, ?_, ?_, ?_⟩
        · rw [List.get_cons_succ]
          exact hl
        · rw [List.get_cons_succ]
          exact hr
        · rw [hstep, if_neg hq, hval]
          congr 1

instance : IsTrans (ℚ × ℚ) (fun a b => a.1 ≤ b.1) := ⟨fun _ _ _ h1 h2 => le_trans h1 h2⟩

instance : IsTrans (ℚ × ℚ) (fun a b => a.1 < b.1) := ⟨fun _ _ _ h1 h2 => lt_trans h1 h2⟩

instance : IsTrans (ℚ × ℚ) (fun a b => a.2 ≤ b.2) := ⟨fun _ _ _ h1 h2 => le_trans h1 h2⟩

/-- In a table with non-strictly ascending x values, at most one consecutive
pair brackets a query from the left strictly. -/
theorem bracket_unique (l : List (ℚ × ℚ)) (x : ℚ)
    (hsx : List.Chain' (fun a b : ℚ × ℚ => a.1 ≤ b.1) l)
    {i j : ℕ} (hi1 : i + 1 < l.length) (hj1 : j + 1 < l.length)
    (hil : (l.get ⟨i, Nat.lt_of_succ_lt hi1⟩).1 < x) (hir : x ≤ (l.get ⟨i + 1, hi1⟩).1)
    (hjl : (l.get ⟨j, Nat.lt_of_succ_lt hj1⟩).1 < x) (hjr : x ≤ (l.get ⟨j + 1, hj1⟩).1) :
    i = j := by
  have hpw : List.Pairwise (fun a b : ℚ × ℚ => a.1 ≤ b.1) l :=
    List.chain'_iff_pairwise.mp hsx
  rw [List.pairwise_iff_getElem] at hpw
  by_contra hne
  rcases Nat.lt_or_ge i j with h | h
  · -- i + 1 ≤ j, so x ≤ l[i+1].1 ≤ l[j].1 < x
    rcases Nat.lt_or_ge (i + 1) j with h2 | h2
    · have := hpw (i + 1) j hi1 (Nat.lt_of_succ_lt hj1) h2
      simp only [List.get_eq_getElem] at hir hjl
      linarith
    · have hij : i + 1 = j := by omega
      subst hij
      simp only [List.get_eq_getElem] at hir hjl
      linarith
  · rcases Nat.lt_or_ge j i with h3 | h3
    · rcases Nat.lt_or_ge (j + 1) i with h2 | h2
      · have := hpw (j + 1) i hj1 (Nat.lt_of_succ_lt hi1) h2
        simp only [List.get_eq_getElem] at hjr hil
        linarith
      · have hij : j + 1 = i := by omega
        subst hij
        simp only [List.get_eq_getElem] at hjr hil
        linarith
    · omega

/-- Transitive closure of the x-chain: x values are non-decreasing in index. -/
theorem fst_mono_of_chain (l : List (ℚ × ℚ))
    (hsx : List.Chain' (fun a b : ℚ × ℚ => a.1 ≤ b.1) l)
    {i j : ℕ} (hij : i ≤ j) (hj : j < l.length) :
    (l.get ⟨i, lt_of_le_of_lt hij hj⟩).1 ≤ (l.get ⟨j, hj⟩).1 := by
  rcases Nat.lt_or_ge i j with h | h
  · have hpw := List.chain'_iff_pairwise.mp hsx
    rw [List.pairwise_iff_getElem] at hpw
    simpa using hpw i j (lt_of_le_of_lt hij hj) hj h
  · have : i = j := by omega
    subst this
    exact le_refl _

/-- Transitive closure of the y-chain: y values are non-decreasing in index. -/
theorem snd_mono_of_chain (l : List (ℚ × ℚ))
    (hsy : List.Chain' (fun a b : ℚ × ℚ => a.2 ≤ b.2) l)
    {i j : ℕ} (hij : i ≤ j) (hj : j < l.length) :
    (l.get ⟨i, lt_of_le_of_lt hij hj⟩).2 ≤ (l.get ⟨j, hj⟩).2 := by
  rcases Nat.lt_or_ge i j with h | h
  · have hpw := List.chain'_iff_pairwise.mp hsy
    rw [List.pairwise_iff_getElem] at hpw
    simpa using hpw i j (lt_of_le_of_lt hij hj) hj h
  · have : i = j := by omega
    subst this
    exact le_refl _

/-- Strict transitive closure of a strict x-chain. -/
theorem fst_strict_of_chain (l : List (ℚ × ℚ))
    (hsx : List.Chain' (fun a b : ℚ × ℚ => a.1 < b.1) l)
    {i j : ℕ} (hij : i < j) (hj : j < l.length) :
    (l.get ⟨i, lt_trans hij hj⟩).1 < (l.get ⟨j, hj⟩).1 := by
  have hpw := List.chain'_iff_pairwise.mp hsx
  rw [List.pairwise_iff_getElem] at hpw
  simpa using hpw i j (lt_trans hij hj) hj hij

/-- Interpolation is exact at the checkpoints of a strictly x-sorted table. -/
theorem interp_checkpoint (l : List (ℚ × ℚ))
    (hsx : List.Chain' (fun a b : ℚ × ℚ => a.1 < b.1) l)
    (k : ℕ) (hk : k < l.length) :
    linearInterpolate l ((l.get ⟨k, hk⟩).1) = (l.get ⟨k, hk⟩).2 := by
  have hne : l ≠ [] := by
    intro h
    subst h
    simp at hk
  obtain ⟨p, tl, rfl⟩ := List.exists_cons_of_ne_nil hne
  set x := (((p :: tl)).get ⟨k, hk⟩).1 with hxdef
  by_cases h0 : x ≤ p.1
  · -- head guard fires: k must be 0
    have hk0 : k = 0 := by
      by_contra hkne
      have h1k : 0 < k := Nat.pos_of_ne_zero hkne
      have := fst_strict_of_chain (p :: tl) hsx h1k hk
      simp only [List.get] at this
      rw [← hxdef] at this
      exact absurd h0 (not_le.mpr this)
    subst hk0
    rw [interp_head p tl x h0]
    simp [hxdef]
  · have hpx : p.1 < x := not_le.mp h0
    by_cases h1 : (tl.getLastD p).1 ≤ x
    · -- last guard fires: k must be the last index
      have hlastget : tl.getLastD p = (p :: tl).get ⟨(p :: tl).length - 1, by simp⟩ := by
        rw [getLastD_cons_eq_getLast, List.getLast_eq_getElem]
        simp [List.get_eq_getElem]
      have hjlt : (p :: tl).length - 1 < (p :: tl).length := by
        simp only [List.length_cons]
        omega
      have hkl : k = (p :: tl).length - 1 := by
        by_contra hkne
        have hklt : k < (p :: tl).length - 1 := by
          simp only [List.length_cons] at hk hkne ⊢
          omega
        have := fst_strict_of_chain (p :: tl) hsx hklt hjlt
        rw [← hxdef, ← hlastget] at this
        exact absurd h1 (not_le.mpr this)
      rw [interp_last p tl x h0 h1, hlastget]
      have hfin : (⟨(p :: tl).length - 1, hjlt⟩ : Fin (p :: tl).length) = ⟨k, hk⟩ :=
        by simp only [Fin.mk.injEq]; omega
      rw [hfin]
    · -- in-range: the bracket pair ends at index k
      have hxlast : x < ((p :: tl).getLast (List.cons_ne_nil p tl)).1 := by
        rw [← getLastD_cons_eq_getLast]
        exact not_le.mp h1
      obtain ⟨i, hi1, hl, hr, hval⟩ :=
        interp_bracket (p :: tl) x (List.cons_ne_nil p tl) (by rw [List.head_cons]; exact hpx)
          hxlast
      have hik : i + 1 = k := by
        by_contra hne2
        rcases Nat.lt_or_ge (i + 1) k with hlt | hge
        · have := fst_strict_of_chain (p :: tl) hsx hlt hk
          rw [← hxdef] at this
          exact absurd hr (not_le.mpr this)
        · have hki : k ≤ i := by omega
          rcases Nat.lt_or_ge k i with hlt2 | hge2
          · have := fst_strict_of_chain (p :: tl) hsx hlt2 (Nat.lt_of_succ_lt hi1)
            rw [← hxdef] at this
            exact absurd hl (not_lt.mpr (le_of_lt this))
          · have : i = k := by omega
            subst this
            exact absurd hl (lt_irrefl x)
      subst hik
      rw [hval]
      have hseg : ((p :: tl).get ⟨i, Nat.lt_of_succ_lt hi1⟩).1 < ((p :: tl).get ⟨i + 1, hi1⟩).1 :=
        lt_of_lt_of_le hl hr
      have hx : x = ((p :: tl).get ⟨i + 1, hi1⟩).1 := hxdef
      rw [hx, interpolateSegment_right _ _ hseg]

/-- On a table with non-decreasing x and y values, interpolation stays
between the first and last y values. -/
theorem interp_bounds (l : List (ℚ × ℚ)) (hne : l ≠ [])
    (hsx : List.Chain' (fun a b : ℚ × ℚ => a.1 ≤ b.1) l)
    (hsy : List.Chain' (fun a b : ℚ × ℚ => a.2 ≤ b.2) l) (x : ℚ) :
    (l.head hne).2 ≤ linearInterpolate l x ∧
      linearInterpolate l x ≤ (l.getLast hne).2 := by
  obtain ⟨p, tl, rfl⟩ := List.exists_cons_of_ne_nil hne
  have hlen : 0 < (p :: tl).length := by simp
  have hheadget : ((p :: tl).head hne) = (p :: tl).get ⟨0, hlen⟩ := rfl
  have hlastlt : (p :: tl).length - 1 < (p :: tl).length := by
    simp only [List.length_cons]
    omega
  have hlastget : ((p :: tl).getLast hne) = (p :: tl).get ⟨(p :: tl).length - 1, hlastlt⟩ := by
    rw [List.getLast_eq_getElem]
    simp [List.get_eq_getElem]
  have hheadlast : ((p :: tl).head hne).2 ≤ ((p :: tl).getLast hne).2 := by
    rw [hheadget, hlastget]
    exact snd_mono_of_chain _ hsy (Nat.zero_le _) hlastlt
  by_cases h0 : x ≤ p.1
  · rw [interp_head p tl x h0]
    exact ⟨le_refl _, hheadlast⟩
  · by_cases h1 : (tl.getLastD p).1 ≤ x
    · rw [interp_last p tl x h0 h1, getLastD_cons_eq_getLast]
      exact ⟨hheadlast, le_refl _⟩
    · have hxlast : x < ((p :: tl).getLast hne).1 := by
        rw [← getLastD_cons_eq_getLast]
        exact not_le.mp h1
      obtain ⟨i, hi1, hl, hr, hval⟩ :=
        interp_bracket (p :: tl) x hne (not_le.mp h0) hxlast
      have hseg : ((p :: tl).get ⟨i, Nat.lt_of_succ_lt hi1⟩).1 < ((p :: tl).get ⟨i + 1, hi1⟩).1 :=
        lt_of_lt_of_le hl hr
      have hy : ((p :: tl).get ⟨i, Nat.lt_of_succ_lt hi1⟩).2 ≤ ((p :: tl).get ⟨i + 1, hi1⟩).2 :=
        snd_mono_of_chain _ hsy (Nat.le_succ i) hi1
      rw [hval]
      constructor
      · calc ((p :: tl).head hne).2 ≤ ((p :: tl).get ⟨i, Nat.lt_of_succ_lt hi1⟩).2 := by
              rw [hheadget]
              exact snd_mono_of_chain _ hsy (Nat.zero_le _) (Nat.lt_of_succ_lt hi1)
          _ ≤ interpolateSegment _ _ x :=
              interpolateSegment_lb _ _ x hseg hy (le_of_lt hl)
      · calc interpolateSegment _ _ x ≤ ((p :: tl).get ⟨i + 1, hi1⟩).2 :=
              interpolateSegment_ub _ _ x hseg hy hr
          _ ≤ ((p :: tl).getLast hne).2 := by
              rw [hlastget]
              apply snd_mono_of_chain _ hsy ?_ hlastlt
              simp only [List.length_cons] at hi1 ⊢
              omega

/-- On a table with non-decreasing x and y values, interpolation is monotone
in the query. -/
theorem interp_mono (l : List (ℚ × ℚ)) (hne : l ≠ [])
    (hsx : List.Chain' (fun a b : ℚ × ℚ => a.1 ≤ b.1) l)
    (hsy : List.Chain' (fun a b : ℚ × ℚ => a.2 ≤ b.2) l)
    {x1 x2 : ℚ} (h12 : x1 ≤ x2) :
    linearInterpolate l x1 ≤ linearInterpolate l x2 := by
  obtain ⟨p, tl, rfl⟩ := List.exists_cons_of_ne_nil hne
  by_cases a1 : x1 ≤ p.1
  · rw [interp_head p tl x1 a1]
    exact (interp_bounds (p :: tl) hne hsx hsy x2).1
  · have hpx1 : p.1 < x1 := not_le.mp a1
    have a2 : ¬ x2 ≤ p.1 := not_le.mpr (lt_of_lt_of_le hpx1 h12)
    by_cases b1 : (tl.getLastD p).1 ≤ x1
    · have b2 : (tl.getLastD p).1 ≤ x2 := le_trans b1 h12
      rw [interp_last p tl x1 a1 b1, interp_last p tl x2 a2 b2]
    · by_cases b2 : (tl.getLastD p).1 ≤ x2
      · rw [interp_last p tl x2 a2 b2, getLastD_cons_eq_getLast]
        exact (interp_bounds (p :: tl) hne hsx hsy x1).2
      · -- both queries are in range
        have hx1last : x1 < ((p :: tl).getLast hne).1 := by
          rw [← getLastD_cons_eq_getLast]
          exact not_le.mp b1
        have hx2last : x2 < ((p :: tl).getLast hne).1 := by
          rw [← getLastD_cons_eq_getLast]
          exact not_le.mp b2
        obtain ⟨i, hi1, hil, hir, hiv⟩ :=
          interp_bracket (p :: tl) x1 hne hpx1 hx1last
        obtain ⟨j, hj1, hjl, hjr, hjv⟩ :=
          interp_bracket (p :: tl) x2 hne (not_le.mp a2) hx2last
        rw [hiv, hjv]
        have hij : i ≤ j := by
          by_contra hgt
          have hji1 : j + 1 ≤ i := by omega
          have : ((p :: tl).get ⟨j + 1, hj1⟩).1 ≤ ((p :: tl).get ⟨i, Nat.lt_of_succ_lt hi1⟩).1 :=
            fst_mono_of_chain _ hsx hji1 (Nat.lt_of_succ_lt hi1)
          linarith
        rcases Nat.lt_or_ge i j with hlt | hge
        · -- different segments
          have hiseg : ((p :: tl).get ⟨i, Nat.lt_of_succ_lt hi1⟩).1 < ((p :: tl).get ⟨i + 1, hi1⟩).1 :=
            lt_of_lt_of_le hil hir
          have hjseg : ((p :: tl).get ⟨j, Nat.lt_of_succ_lt hj1⟩).1 < ((p :: tl).get ⟨j + 1, hj1⟩).1 :=
            lt_of_lt_of_le hjl hjr
          have hiy : ((p :: tl).get ⟨i, Nat.lt_of_succ_lt hi1⟩).2 ≤ ((p :: tl).get ⟨i + 1, hi1⟩).2 :=
            snd_mono_of_chain _ hsy (Nat.le_succ i) hi1
          have hjy : ((p :: tl).get ⟨j, Nat.lt_of_succ_lt hj1⟩).2 ≤ ((p :: tl).get ⟨j + 1, hj1⟩).2 :=
            snd_mono_of_chain _ hsy (Nat.le_succ j) hj1
          calc interpolateSegment _ _ x1 ≤ ((p :: tl).get ⟨i + 1, hi1⟩).2 :=
                interpolateSegment_ub _ _ x1 hiseg hiy hir
            _ ≤ ((p :: tl).get ⟨j, Nat.lt_of_succ_lt hj1⟩).2 :=
                snd_mono_of_chain _ hsy (by omega) (Nat.lt_of_succ_lt hj1)
            _ ≤ interpolateSegment _ _ x2 :=
                interpolateSegment_lb _ _ x2 hjseg hjy (le_of_lt hjl)
        · -- same segment
          have hijeq : i = j := by omega
          subst hijeq
          have hiseg : ((p :: tl).get ⟨i, Nat.lt_of_succ_lt hi1⟩).1 < ((p :: tl).get ⟨i + 1, hi1⟩).1 :=
            lt_of_lt_of_le hil hir
          have hiy : ((p :: tl).get ⟨i, Nat.lt_of_succ_lt hi1⟩).2 ≤ ((p :: tl).get ⟨i + 1, hi1⟩).2 :=
            snd_mono_of_chain _ hsy (Nat.le_succ i) hi1
          exact interpolateSegment_mono _ _ hiseg hiy h12

/-- Two tables over the same x checkpoints with pointwise strictly smaller y
values interpolate to strictly smaller values everywhere. -/
theorem interp_lt_interp (l1 l2 : List (ℚ × ℚ))
    (hfst : l1.map Prod.fst = l2.map Prod.fst) (hne1 : l1 ≠ [])
    (hsx : List.Chain' (fun a b : ℚ × ℚ => a.1 ≤ b.1) l1)
    (hlen : l1.length = l2.length)
    (hy : ∀ i (hi : i < l1.length), (l1.get ⟨i, hi⟩).2 < (l2.get ⟨i, hlen ▸ hi⟩).2)
    (x : ℚ) :
    linearInterpolate l1 x < linearInterpolate l2 x := by
  have hne2 : l2 ≠ [] := by
    intro h
    subst h
    simp only [List.length_nil] at hlen
    exact hne1 (List.length_eq_zero.mp hlen)
  have hxeq : ∀ i (hi1 : i < l1.length) (hi2 : i < l2.length),
      (l1.get ⟨i, hi1⟩).1 = (l2.get ⟨i, hi2⟩).1 := by
    intro i hi1 hi2
    have hm1 : i < (l1.map Prod.fst).length := by simpa using hi1
    have h1 := List.get_of_eq hfst ⟨i, hm1⟩
    simp only [List.get_eq_getElem, List.getElem_map] at h1
    simp only [List.get_eq_getElem]
    exact h1
  have hsx2 : List.Chain' (fun a b : ℚ × ℚ => a.1 ≤ b.1) l2 := by
    rw [List.chain'_iff_get] at hsx ⊢
    intro i h
    have h1 : i < l1.length - 1 := by omega
    have := hsx i h1
    rw [hxeq i (by omega) (by omega), hxeq (i + 1) (by omega) (by omega)] at this
    exact this
  obtain ⟨p, tl, rfl⟩ := List.exists_cons_of_ne_nil hne1
  obtain ⟨q, tl2, rfl⟩ := List.exists_cons_of_ne_nil hne2
  have hlen1pos : 0 < (p :: tl).length := by simp
  have hlen2pos : 0 < (q :: tl2).length := by simp
  have hpq : p.1 = q.1 := hxeq 0 hlen1pos hlen2pos
  have hlast1lt : (p :: tl).length - 1 < (p :: tl).length := by
    simp only [List.length_cons]
    omega
  have hlast2lt : (q :: tl2).length - 1 < (q :: tl2).length := by
    simp only [List.length_cons]
    omega
  have hlast1get : tl.getLastD p = (p :: tl).get ⟨(p :: tl).length - 1, hlast1lt⟩ := by
    rw [getLastD_cons_eq_getLast, List.getLast_eq_getElem]
    simp [List.get_eq_getElem]
  have hlast2get : tl2.getLastD q = (q :: tl2).get ⟨(q :: tl2).length - 1, hlast2lt⟩ := by
    rw [getLastD_cons_eq_getLast, List.getLast_eq_getElem]
    simp [List.get_eq_getElem]
  have hlastfst : (tl.getLastD p).1 = (tl2.getLastD q).1 := by
    rw [hlast1get, hlast2get]
    have hfin : (⟨(q :: tl2).length - 1, hlast2lt⟩ : Fin (q :: tl2).length) =
        ⟨(p :: tl).length - 1, by omega⟩ := by
      simp only [Fin.mk.injEq]
      omega
    rw [hfin]
    exact hxeq _ hlast1lt (by omega)
  by_cases h0 : x ≤ p.1
  · rw [interp_head p tl x h0, interp_head q tl2 x (hpq ▸ h0)]
    have := hy 0 hlen1pos
    simpa using this
  · by_cases h1 : (tl.getLastD p).1 ≤ x
    · have h1' : (tl2.getLastD q).1 ≤ x := hlastfst ▸ h1
      rw [interp_last p tl x h0 h1, interp_last q tl2 x (fun hc => h0 (hpq ▸ hc)) h1']
      rw [hlast1get, hlast2get]
      have hfin : (⟨(q :: tl2).length - 1, hlast2lt⟩ : Fin (q :: tl2).length) =
          ⟨(p :: tl).length - 1, by omega⟩ := by
        simp only [Fin.mk.injEq]
        omega
      rw [hfin]
      exact hy ((p :: tl).length - 1) hlast1lt
    · -- both in range: identical brackets
      have hx1last : x < ((p :: tl).getLast (List.cons_ne_nil p tl)).1 := by
        rw [← getLastD_cons_eq_getLast]
        exact not_le.mp h1
      have hx2last : x < ((q :: tl2).getLast (List.cons_ne_nil q tl2)).1 := by
        rw [← getLastD_cons_eq_getLast, ← hlastfst]
        exact not_le.mp h1
      obtain ⟨i, hi1, hil, hir, hiv⟩ :=
        interp_bracket (p :: tl) x (List.cons_ne_nil p tl) (not_le.mp h0) hx1last
      obtain ⟨j, hj1, hjl, hjr, hjv⟩ :=
        interp_bracket (q :: tl2) x (List.cons_ne_nil q tl2)
          (by rw [List.head_cons, ← hpq]; exact not_le.mp h0) hx2last
      -- transfer j's bracket to table 1 and conclude i = j
      have hj1L : j + 1 < (p :: tl).length := by omega
      have hjlL : ((p :: tl).get ⟨j, Nat.lt_of_succ_lt hj1L⟩).1 < x := by
        rw [hxeq j (Nat.lt_of_succ_lt hj1L) (Nat.lt_of_succ_lt hj1)]
        exact hjl
      have hjrL : x ≤ ((p :: tl).get ⟨j + 1, hj1L⟩).1 := by
        rw [hxeq (j + 1) hj1L hj1]
        exact hjr
      have hij : i = j := bracket_unique (p :: tl) x hsx hi1 hj1L hil hir hjlL hjrL
      subst hij
      rw [hiv, hjv]
      apply interpolateSegment_strict
      · exact hxeq i (Nat.lt_of_succ_lt hi1) (Nat.lt_of_succ_lt hj1)
      · exact hxeq (i + 1) hi1 hj1
      · exact lt_of_lt_of_le hil hir
      · exact hy i (Nat.lt_of_succ_lt hi1)
      · exact hy (i + 1) hi1
      · exact hil
      · exact hir

/-! ## Claim theorems -/

/-- C4: for every non-empty point table with x values sorted ascending and
every query x, `linearInterpolate` returns the first point's y when x is at
or below the first x; otherwise the last point's y when x is at or above the
last x; otherwise it interpolates linearly between the unique consecutive
bracketing pair; the segment step returns the left point's y when its two
points share the same x (no division by zero); and a single-point table
returns that point's y for every query. -/
theorem claim_C4_interpolation (points : List (ℚ × ℚ)) (hne : points ≠ [])
    (hsort : List.Chain' (fun a b : ℚ × ℚ => a.1 ≤ b.1) points) (x : ℚ) :
    (x ≤ (points.head hne).1 → linearInterpolate points x = (points.head hne).2) ∧
    (¬ x ≤ (points.head hne).1 → (points.getLast hne).1 ≤ x →
      linearInterpolate points x = (points.getLast hne).2) ∧
    ((points.head hne).1 < x → x < (points.getLast hne).1 →
      ∃ (i : ℕ) (hi1 : i + 1 < points.length),
        (points.get ⟨i, Nat.lt_of_succ_lt hi1⟩).1 < x ∧
        x ≤ (points.get ⟨i + 1, hi1⟩).1 ∧
        linearInterpolate points x =
          interpolateSegment (points.get ⟨i, Nat.lt_of_succ_lt hi1⟩)
            (points.get ⟨i + 1, hi1⟩) x) ∧
    (∀ p0 p1 : ℚ × ℚ, p1.1 = p0.1 → ∀ y, interpolateSegment p0 p1 y = p0.2) ∧
    (∀ p : ℚ × ℚ, ∀ y, linearInterpolate [p] y = p.2) := by
  obtain ⟨p, tl, rfl⟩ := List.exists_cons_of_ne_nil hne
  refine ⟨?_, ?_, ?_, ?_, ?_⟩
  · intro h
    rw [List.head_cons]
    exact interp_head p tl x h
  · intro h0 h1
    rw [← getLastD_cons_eq_getLast] at h1 ⊢
    exact interp_last p tl x (by rw [List.head_cons] at h0; exact h0) h1
  · intro h0 h1
    exact interp_bracket (p :: tl) x hne h0 h1
  · intro p0 p1 hx y
    rw [interpolateSegment, if_pos hx]
  · intro p0 y
    exact interp_single p0 y

/-- Witness for C4 at the table `[(0,0),(10,10)]` and query `5`. -/
theorem claim_C4_interpolation_witness :
    ((([((0:ℚ),(0:ℚ)), (10,10)] : List (ℚ × ℚ)) ≠ []) ∧
      List.Chain' (fun a b : ℚ × ℚ => a.1 ≤ b.1) [((0:ℚ),(0:ℚ)), (10,10)]) ∧
    (let points : List (ℚ × ℚ) := [((0:ℚ),(0:ℚ)), (10,10)]
     ∀ hne : points ≠ [],
      ((5:ℚ) ≤ (points.head hne).1 → linearInterpolate points 5 = (points.head hne).2) ∧
      (¬ (5:ℚ) ≤ (points.head hne).1 → (points.getLast hne).1 ≤ 5 →
        linearInterpolate points 5 = (points.getLast hne).2) ∧
      ((points.head hne).1 < 5 → (5:ℚ) < (points.getLast hne).1 →
        ∃ (i : ℕ) (hi1 : i + 1 < points.length),
          (points.get ⟨i, Nat.lt_of_succ_lt hi1⟩).1 < 5 ∧
          (5:ℚ) ≤ (points.get ⟨i + 1, hi1⟩).1 ∧
          linearInterpolate points 5 =
            interpolateSegment (points.get ⟨i, Nat.lt_of_succ_lt hi1⟩)
              (points.get ⟨i + 1, hi1⟩) 5) ∧
      (∀ p0 p1 : ℚ × ℚ, p1.1 = p0.1 → ∀ y, interpolateSegment p0 p1 y = p0.2) ∧
      (∀ p : ℚ × ℚ, ∀ y, linearInterpolate [p] y = p.2)) := by
  refine ⟨⟨by simp, by norm_num [List.chain'_cons]⟩, ?_⟩
  intro points hne
  exact claim_C4_interpolation points hne (by show List.Chain' _ [((0:ℚ),(0:ℚ)), (10,10)]; norm_num [List.chain'_cons]) 5

/-- C9 counterexample: the table `[(5,1),(5,2)]` has x values sorted ascending
(with a duplicate, which the spec's table invariant permits) and y values
monotonically non-decreasing, yet interpolation at the checkpoint x = 5 of the
second point `(5,2)` returns 1, not that checkpoint's y = 2. -/
theorem claim_C9_counterexample :
    List.Chain' (fun a b : ℚ × ℚ => a.1 ≤ b.1) [((5:ℚ),(1:ℚ)), (5,2)] ∧
    List.Chain' (fun a b : ℚ × ℚ => a.2 ≤ b.2) [((5:ℚ),(1:ℚ)), (5,2)] ∧
    (([((5:ℚ),(1:ℚ)), (5,2)] : List (ℚ × ℚ)).get ⟨1, by norm_num⟩).1 = 5 ∧
    (([((5:ℚ),(1:ℚ)), (5,2)] : List (ℚ × ℚ)).get ⟨1, by norm_num⟩).2 = 2 ∧
    linearInterpolate [((5:ℚ),(1:ℚ)), (5,2)] 5 = 1 ∧ (1:ℚ) ≠ 2 := by
  refine ⟨by norm_num [List.chain'_cons], by norm_num [List.chain'_cons], by norm_num,
    by norm_num, ?_, by norm_num⟩
  exact interp_head (5, 1) [(5, 2)] 5 (by norm_num)

/-- C9 amended: on a table with x sorted ascending and y monotonically
non-decreasing, interpolation is monotonically non-decreasing in the query;
exactness at every checkpoint holds when the x values are strictly
ascending (at a duplicated checkpoint x only the first occurrence's y is
reproduced, as the counterexample shows). -/
theorem claim_C9_monotone_exact (points : List (ℚ × ℚ))
    (hsx : List.Chain' (fun a b : ℚ × ℚ => a.1 ≤ b.1) points)
    (hsy : List.Chain' (fun a b : ℚ × ℚ => a.2 ≤ b.2) points) :
    (∀ x1 x2 : ℚ, x1 ≤ x2 → linearInterpolate points x1 ≤ linearInterpolate points x2) ∧
    (List.Chain' (fun a b : ℚ × ℚ => a.1 < b.1) points →
      ∀ k (hk : k < points.length),
        linearInterpolate points ((points.get ⟨k, hk⟩).1) = (points.get ⟨k, hk⟩).2) := by
  constructor
  · intro x1 x2 h12
    by_cases hne : points = []
    · subst hne
      exact le_refl _
    · exact interp_mono points hne hsx hsy h12
  · intro hstrict k hk
    exact interp_checkpoint points hstrict k hk

/-- Witness for C9 (amended) at the table `[(0,0),(10,10)]`. -/
theorem claim_C9_monotone_exact_witness :
    (List.Chain' (fun a b : ℚ × ℚ => a.1 ≤ b.1) [((0:ℚ),(0:ℚ)), (10,10)] ∧
      List.Chain' (fun a b : ℚ × ℚ => a.2 ≤ b.2) [((0:ℚ),(0:ℚ)), (10,10)]) ∧
    ((∀ x1 x2 : ℚ, x1 ≤ x2 →
        linearInterpolate [((0:ℚ),(0:ℚ)), (10,10)] x1 ≤
          linearInterpolate [((0:ℚ),(0:ℚ)), (10,10)] x2) ∧
      (List.Chain' (fun a b : ℚ × ℚ => a.1 < b.1) [((0:ℚ),(0:ℚ)), (10,10)] →
        ∀ k (hk : k < ([((0:ℚ),(0:ℚ)), (10,10)] : List (ℚ × ℚ)).length),
          linearInterpolate [((0:ℚ),(0:ℚ)), (10,10)]
              ((([((0:ℚ),(0:ℚ)), (10,10)] : List (ℚ × ℚ)).get ⟨k, hk⟩).1) =
            (([((0:ℚ),(0:ℚ)), (10,10)] : List (ℚ × ℚ)).get ⟨k, hk⟩).2)) := by
  refine ⟨⟨by norm_num [List.chain'_cons], by norm_num [List.chain'_cons]⟩, ?_⟩
  exact claim_C9_monotone_exact _ (by norm_num [List.chain'_cons]) (by norm_num [List.chain'_cons])

/-- C8: at every hours-of-life query, the interpolated Bhutani thresholds
satisfy low < lowIntermediate < highIntermediate. -/
theorem claim_C8_curve_ordering (hol : ℚ) :
    linearInterpolate bhutaniData.low hol <
      linearInterpolate bhutaniData.lowIntermediate hol ∧
    linearInterpolate bhutaniData.lowIntermediate hol <
      linearInterpolate bhutaniData.highIntermediate hol := by
  constructor
  · apply interp_lt_interp bhutaniData.low bhutaniData.lowIntermediate
    · norm_num [bhutaniData.low, bhutaniData.lowIntermediate]
    · simp [bhutaniData.low]
    · norm_num [bhutaniData.low, List.chain'_cons]
    · intro i hi
      have hi7 : i < 7 := by simpa [bhutaniData.low] using hi
      interval_cases i <;> norm_num [bhutaniData.low, bhutaniData.lowIntermediate]
    · simp [bhutaniData.low, bhutaniData.lowIntermediate]
  · apply interp_lt_interp bhutaniData.lowIntermediate bhutaniData.highIntermediate
    · norm_num [bhutaniData.lowIntermediate, bhutaniData.highIntermediate]
    · simp [bhutaniData.lowIntermediate]
    · norm_num [bhutaniData.lowIntermediate, List.chain'_cons]
    · intro i hi
      have hi7 : i < 7 := by simpa [bhutaniData.lowIntermediate] using hi
      interval_cases i <;> norm_num [bhutaniData.lowIntermediate, bhutaniData.highIntermediate]
    · simp [bhutaniData.lowIntermediate, bhutaniData.highIntermediate]

/-- Success characterization of the engine. -/
theorem calculateBilirubinRisk_eq_some (i : CalculationInput) (r : CalculationResult) :
    calculateBilirubinRisk i = some r ↔
      ¬(i.birthDateTime = "" ∨ i.measurementDateTime = "" ∨
          i.tcbValue = 0 ∨ i.gestationalWeeks = 0) ∧
      ∃ b m : ℕ, parseDateTime (formatDateTime i.birthDateTime) = some b ∧
        parseDateTime (formatDateTime i.measurementDateTime) = some m ∧
        ¬ m ≤ b ∧ r = assembleResult i b m := by
  rw [calculateBilirubinRisk]
  by_cases hval : i.birthDateTime = "" ∨ i.measurementDateTime = "" ∨
      i.tcbValue = 0 ∨ i.gestationalWeeks = 0
  · rw [if_pos hval]
    simp [hval]
  · rw [if_neg hval]
    cases hb : parseDateTime (formatDateTime i.birthDateTime) with
    | none => simp [hval, hb]
    | some b =>
      cases hm : parseDateTime (formatDateTime i.measurementDateTime) with
      | none => simp [hval, hb, hm]
      | some m =>
        change (if m ≤ b then none else some (assembleResult i b m)) = some r ↔ _
        by_cases hord : m ≤ b
        · rw [if_pos hord]
          simp only [hval, not_false_iff, true_and]
          constructor
          · intro h
            exact absurd h (by simp)
          · rintro ⟨b2, m2, hb2, hm2, hord2, _⟩
            simp only [Option.some.injEq] at hb2 hm2
            subst hb2
            subst hm2
            exact absurd hord hord2
        · rw [if_neg hord]
          simp only [hval, not_false_iff, true_and, Option.some.injEq]
          constructor
          · intro h
            exact ⟨b, m, rfl, rfl, hord, h.symm⟩
          · rintro ⟨b2, m2, hb2, hm2, hord2, hr2⟩
            subst hb2
            subst hm2
            rw [hr2]

/-- Failure characterization of the engine. -/
theorem calculateBilirubinRisk_eq_none (i : CalculationInput) :
    calculateBilirubinRisk i = none ↔
      (i.birthDateTime = "" ∨ i.measurementDateTime = "" ∨
          i.tcbValue = 0 ∨ i.gestationalWeeks = 0) ∨
      parseDateTime (formatDateTime i.birthDateTime) = none ∨
      parseDateTime (formatDateTime i.measurementDateTime) = none ∨
      ∃ b m : ℕ, parseDateTime (formatDateTime i.birthDateTime) = some b ∧
        parseDateTime (formatDateTime i.measurementDateTime) = some m ∧ m ≤ b := by
  rw [calculateBilirubinRisk]
  by_cases hval : i.birthDateTime = "" ∨ i.measurementDateTime = "" ∨
      i.tcbValue = 0 ∨ i.gestationalWeeks = 0
  · rw [if_pos hval]
    simp [hval]
  · rw [if_neg hval]
    cases hb : parseDateTime (formatDateTime i.birthDateTime) with
    | none => simp [hval, hb]
    | some b =>
      cases hm : parseDateTime (formatDateTime i.measurementDateTime) with
      | none => simp [hval, hb, hm]
      | some m =>
        change (if m ≤ b then none else some (assembleResult i b m)) = none ↔ _
        by_cases hord : m ≤ b
        · rw [if_pos hord]
          simp only [hval, false_or, eq_self_iff_true, true_iff]
          right
          right
          exact ⟨b, m, rfl, rfl, hord⟩
        · rw [if_neg hord]
          simp only [hval, false_or]
          constructor
          · intro h
            exact absurd h (by simp)
          · rintro (h | h | ⟨b2, m2, hb2, hm2, hord2⟩)
            · exact absurd h (by simp)
            · exact absurd h (by simp)
            · simp only [Option.some.injEq] at hb2 hm2
              subst hb2
              subst hm2
              exact absurd hord2 hord

/-- C3: the engine returns an absent result exactly when a required field is
absent (empty string, zero number — the typed model's rendering of
absent/empty/zero), a timestamp fails to parse after normalization, or the
measurement instant is not strictly after the birth instant.  The embedded
function is total and returns a fully assembled record otherwise, so it never
throws and never returns a partial result. -/
theorem claim_C3_validation (i : CalculationInput) :
    calculateBilirubinRisk i = none ↔
      i.birthDateTime = "" ∨ i.measurementDateTime = "" ∨
      i.tcbValue = 0 ∨ i.gestationalWeeks = 0 ∨
      parseDateTime (formatDateTime i.birthDateTime) = none ∨
      parseDateTime (formatDateTime i.measurementDateTime) = none ∨
      ∃ b m : ℕ, parseDateTime (formatDateTime i.birthDateTime) = some b ∧
        parseDateTime (formatDateTime i.measurementDateTime) = some m ∧ m ≤ b := by
  rw [calculateBilirubinRisk_eq_none]
  tauto

/-- C5: for every input that produces a result, the Bhutani zone is
NotApplicable whenever the gestational age decimal is < 35 weeks or
hours-of-life exceeds 144; otherwise the zone is High when TCB is strictly
greater than the interpolated high-intermediate curve, else HighIntermediate
when strictly greater than the low-intermediate curve, else LowIntermediate
when strictly greater than the low curve, else Low. -/
theorem claim_C5_bhutani_zone (i : CalculationInput) (r : CalculationResult) (b m : ℕ)
    (hb : parseDateTime (formatDateTime i.birthDateTime) = some b)
    (hm : parseDateTime (formatDateTime i.measurementDateTime) = some m)
    (hr : calculateBilirubinRisk i = some r) :
    r.bhutaniZone =
      (if i.gestationalWeeks + i.gestationalDays / 7 < 35 ∨
          144 < ((m : ℚ) - (b : ℚ)) / 60 then
        BhutaniRiskZone.notApplicable
      else if linearInterpolate bhutaniData.highIntermediate (((m : ℚ) - (b : ℚ)) / 60) <
          i.tcbValue then
        BhutaniRiskZone.high
      else if linearInterpolate bhutaniData.lowIntermediate (((m : ℚ) - (b : ℚ)) / 60) <
          i.tcbValue then
        BhutaniRiskZone.highIntermediate
      else if linearInterpolate bhutaniData.low (((m : ℚ) - (b : ℚ)) / 60) < i.tcbValue then
        BhutaniRiskZone.lowIntermediate
      else BhutaniRiskZone.low) := by
  rw [calculateBilirubinRisk_eq_some] at hr
  obtain ⟨hval, b2, m2, hb2, hm2, hord, hreq⟩ := hr
  rw [hb] at hb2
  rw [hm] at hm2
  injection hb2 with hb3
  injection hm2 with hm3
  subst hb3
  subst hm3
  subst hreq
  simp only [assembleResult, getBhutaniZone]
  by_cases h35 : i.gestationalWeeks + i.gestationalDays / 7 < 35 <;>
    by_cases h144 : 144 < ((m : ℚ) - (b : ℚ)) / 60 <;>
      simp [h35, h144]

/-- A concrete valid input (38w0d, TCB 10, 24 hours of life) used by several
witnesses. -/
def exampleInput38 : CalculationInput :=
  ⟨"2024-01-01T10:00", "2024-01-02T10:00", 10, 38, 0, false⟩

/-- The engine succeeds on `exampleInput38` with the assembled record for the
instants of `2024-01-01T10:00` and `2024-01-02T10:00`. -/
theorem exampleInput38_calc :
    calculateBilirubinRisk exampleInput38 =
      some (assembleResult exampleInput38 1064435640 1064437080) := by
  rw [calculateBilirubinRisk_eq_some]
  exact ⟨by decide, 1064435640, 1064437080, by decide, by decide, by decide, rfl⟩

/-- Witness for C5 at `exampleInput38`. -/
theorem claim_C5_bhutani_zone_witness :
    (parseDateTime (formatDateTime exampleInput38.birthDateTime) = some 1064435640 ∧
     parseDateTime (formatDateTime exampleInput38.measurementDateTime) = some 1064437080 ∧
     calculateBilirubinRisk exampleInput38 =
       some (assembleResult exampleInput38 1064435640 1064437080)) ∧
    (assembleResult exampleInput38 1064435640 1064437080).bhutaniZone =
      (if exampleInput38.gestationalWeeks + exampleInput38.gestationalDays / 7 < 35 ∨
          144 < (((1064437080:ℕ) : ℚ) - ((1064435640:ℕ) : ℚ)) / 60 then
        BhutaniRiskZone.notApplicable
      else if linearInterpolate bhutaniData.highIntermediate
          ((((1064437080:ℕ) : ℚ) - ((1064435640:ℕ) : ℚ)) / 60) <
          exampleInput38.tcbValue then
        BhutaniRiskZone.high
      else if linearInterpolate bhutaniData.lowIntermediate
          ((((1064437080:ℕ) : ℚ) - ((1064435640:ℕ) : ℚ)) / 60) <
          exampleInput38.tcbValue then
        BhutaniRiskZone.highIntermediate
      else if linearInterpolate bhutaniData.low
          ((((1064437080:ℕ) : ℚ) - ((1064435640:ℕ) : ℚ)) / 60) <
          exampleInput38.tcbValue then
        BhutaniRiskZone.lowIntermediate
      else BhutaniRiskZone.low) := by
  refine ⟨⟨by decide, by decide, exampleInput38_calc⟩, ?_⟩
  exact claim_C5_bhutani_zone exampleInput38 _ 1064435640 1064437080 (by decide) (by decide)
    exampleInput38_calc

/-- The Maisels status check in the claim's phrasing (min first) agrees with
the code's phrasing (max first) when min ≤ max. -/
theorem getStatus_eq (v vmin vmax : ℚ) (h : vmin ≤ vmax) :
    getStatus v vmin vmax =
      if v < vmin then ThresholdStatus.below
      else if vmax < v then ThresholdStatus.above
      else ThresholdStatus.within := by
  rw [getStatus]
  by_cases h1 : vmax < v <;> by_cases h2 : v < vmin
  · linarith
  · simp [h1, h2]
  · simp [h1, h2]
  · simp [h1, h2]

/-- C1: for every valid input with gestational age decimal < 35 weeks, the
engine performs the Maisels bracket lookup (< 28 → band 28, [28,30) → band
29, [30,32) → band 31, [32,34) → band 33, ≥ 34 → band 34) and returns, for
phototherapy and exchange transfusion, the threshold formatted as the string
"min-max" and the status BELOW if TCB < min, ABOVE if TCB > max, and WITHIN
otherwise (both bounds inclusive). -/
theorem claim_C1_maisels (i : CalculationInput) (r : CalculationResult)
    (hr : calculateBilirubinRisk i = some r)
    (hage : i.gestationalWeeks + i.gestationalDays / 7 < 35) :
    (let aog := i.gestationalWeeks + i.gestationalDays / 7
     let band :=
       if aog < 28 then maiselsData28
       else if aog < 30 then maiselsData29
       else if aog < 32 then maiselsData31
       else if aog < 34 then maiselsData33
       else maiselsData34
     r.phototherapy.threshold = ThresholdValue.str (mkRangeStr band.pl.1 band.pl.2) ∧
     r.phototherapy.status =
       (if i.tcbValue < band.pl.1 then ThresholdStatus.below
        else if band.pl.2 < i.tcbValue then ThresholdStatus.above
        else ThresholdStatus.within) ∧
     r.exchangeTransfusion.threshold =
       ThresholdValue.str (mkRangeStr band.dvet.1 band.dvet.2) ∧
     r.exchangeTransfusion.status =
       (if i.tcbValue < band.dvet.1 then ThresholdStatus.below
        else if band.dvet.2 < i.tcbValue then ThresholdStatus.above
        else ThresholdStatus.within)) := by
  obtain ⟨hval, b, m, hb, hm, hord, hreq⟩ := (calculateBilirubinRisk_eq_some i r).mp hr
  subst hreq
  have h35 : ¬ 35 ≤ i.gestationalWeeks + i.gestationalDays / 7 := not_le.mpr hage
  intro aog band
  have hband : band = if aog < 28 then maiselsData28
       else if aog < 30 then maiselsData29
       else if aog < 32 then maiselsData31
       else if aog < 34 then maiselsData33
       else maiselsData34 := rfl
  have hthr : (assembleResult i b m).phototherapy =
        (getMaiselsThresholds aog i.tcbValue).phototherapy ∧
      (assembleResult i b m).exchangeTransfusion =
        (getMaiselsThresholds aog i.tcbValue).exchangeTransfusion := by
    constructor <;> simp only [assembleResult, if_neg h35]
  rw [hthr.1, hthr.2]
  have hminmax : band.pl.1 ≤ band.pl.2 ∧ band.dvet.1 ≤ band.dvet.2 := by
    rw [hband]
    by_cases h28 : aog < 28
    · simp only [if_pos h28, maiselsData28]
      norm_num
    · by_cases h30 : aog < 30
      · simp only [if_neg h28, if_pos h30, maiselsData29]
        norm_num
      · by_cases h32 : aog < 32
        · simp only [if_neg h28, if_neg h30, if_pos h32, maiselsData31]
          norm_num
        · by_cases h34 : aog < 34
          · simp only [if_neg h28, if_neg h30, if_neg h32, if_pos h34, maiselsData33]
            norm_num
          · simp only [if_neg h28, if_neg h30, if_neg h32, if_neg h34, maiselsData34]
            norm_num
  have hmt : getMaiselsThresholds aog i.tcbValue =
      { phototherapy :=
          { status := getStatus i.tcbValue band.pl.1 band.pl.2
            threshold := ThresholdValue.str (mkRangeStr band.pl.1 band.pl.2) }
        exchangeTransfusion :=
          { status := getStatus i.tcbValue band.dvet.1 band.dvet.2
            threshold := ThresholdValue.str (mkRangeStr band.dvet.1 band.dvet.2) } } := by
    rw [getMaiselsThresholds]
  rw [hmt]
  exact ⟨rfl, getStatus_eq _ _ _ hminmax.1, rfl, getStatus_eq _ _ _ hminmax.2⟩

/-- A concrete valid preterm input: 27w0d, TCB 5.5, 24 hours of life. -/
def exampleInput27 : CalculationInput :=
  ⟨"2024-01-01T10:00", "2024-01-02T10:00", 5.5, 27, 0, false⟩

/-- The engine succeeds on `exampleInput27`. -/
theorem exampleInput27_calc :
    calculateBilirubinRisk exampleInput27 =
      some (assembleResult exampleInput27 1064435640 1064437080) := by
  rw [calculateBilirubinRisk_eq_some]
  refine ⟨?_, 1064435640, 1064437080, by decide, by decide, by decide, rfl⟩
  rintro (h | h | h | h)
  · exact absurd h (by decide)
  · exact absurd h (by decide)
  · norm_num [exampleInput27] at h
  · norm_num [exampleInput27] at h

/-- Witness for C1 at `exampleInput27` (gestational age 27 weeks, TCB 5.5):
in particular the phototherapy threshold is the string "5-6" with status
WITHIN. -/
theorem claim_C1_maisels_witness :
    (calculateBilirubinRisk exampleInput27 =
        some (assembleResult exampleInput27 1064435640 1064437080) ∧
      exampleInput27.gestationalWeeks + exampleInput27.gestationalDays / 7 < 35) ∧
    (let aog := exampleInput27.gestationalWeeks + exampleInput27.gestationalDays / 7
     let band :=
       if aog < 28 then maiselsData28
       else if aog < 30 then maiselsData29
       else if aog < 32 then maiselsData31
       else if aog < 34 then maiselsData33
       else maiselsData34
     (assembleResult exampleInput27 1064435640 1064437080).phototherapy.threshold =
       ThresholdValue.str (mkRangeStr band.pl.1 band.pl.2) ∧
     (assembleResult exampleInput27 1064435640 1064437080).phototherapy.status =
       (if exampleInput27.tcbValue < band.pl.1 then ThresholdStatus.below
        else if band.pl.2 < exampleInput27.tcbValue then ThresholdStatus.above
        else ThresholdStatus.within) ∧
     (assembleResult exampleInput27 1064435640 1064437080).exchangeTransfusion.threshold =
       ThresholdValue.str (mkRangeStr band.dvet.1 band.dvet.2) ∧
     (assembleResult exampleInput27 1064435640 1064437080).exchangeTransfusion.status =
       (if exampleInput27.tcbValue < band.dvet.1 then ThresholdStatus.below
        else if band.dvet.2 < exampleInput27.tcbValue then ThresholdStatus.above
        else ThresholdStatus.within)) ∧
    (assembleResult exampleInput27 1064435640 1064437080).phototherapy =
      { status := ThresholdStatus.within, threshold := ThresholdValue.str "5-6" } := by
  refine ⟨⟨exampleInput27_calc, by norm_num [exampleInput27]⟩, ?_, ?_⟩
  · exact claim_C1_maisels exampleInput27 _ exampleInput27_calc (by norm_num [exampleInput27])
  · norm_num [assembleResult, exampleInput27, getMaiselsThresholds, getStatus, mkRangeStr,
      fmtNum, maiselsData28]
    decide

/-- C2 counterexample: for birth 2024-01-01T10:00, measurement
2024-01-02T10:00 (24 hours of life), TCB 10, gestational age 38w0d, no risk
factors, the engine returns a phototherapy threshold of 12 whose status is
BELOW (the code marks ABOVE only when TCB ≥ threshold, and 10 < 12), so the
claimed phototherapy status ABOVE is false at this input. -/
theorem claim_C2_counterexample :
    (calculateBilirubinRisk exampleInput38).map (fun r => r.phototherapy) =
      some { status := ThresholdStatus.below, threshold := ThresholdValue.num 12 } ∧
    ThresholdStatus.below ≠ ThresholdStatus.above := by
  refine ⟨?_, by decide⟩
  rw [exampleInput38_calc]
  norm_num [assembleResult, exampleInput38, getAapThresholds, linearInterpolate,
    interpolateSegment, List.findIdx_cons, Bool.cond_decide,
    aapPlData.lowerRisk, aapDvetData.lowerRisk, toFixed2]

/-- C2 amended: `calculateRisk` on birth 2024-01-01T10:00, measurement
2024-01-02T10:00 (24 hours of life), TCB 10, gestational age 38w0d, no risk
factors, returns a phototherapy threshold of 12 with status BELOW and an
exchange-transfusion threshold of 19 with status BELOW. -/
theorem claim_C2_aap_example :
    (calculateBilirubinRisk exampleInput38).map
        (fun r => (r.hol, r.phototherapy, r.exchangeTransfusion)) =
      some (24, { status := ThresholdStatus.below, threshold := ThresholdValue.num 12 },
        { status := ThresholdStatus.below, threshold := ThresholdValue.num 19 }) := by
  rw [exampleInput38_calc]
  norm_num [assembleResult, exampleInput38, getAapThresholds, linearInterpolate,
    interpolateSegment, List.findIdx_cons, Bool.cond_decide,
    aapPlData.lowerRisk, aapDvetData.lowerRisk, toFixed2, toFixed1]

/-- C6 counterexample: at hours-of-life 1/60 (one minute), gestational age 38,
no risk factors, TCB 5.001, the reported phototherapy threshold (rounded to 2
decimals) is 5 and TCB ≥ 5, yet the status is BELOW: the code compares TCB
with the unrounded interpolated value 5 + 7/1440, not with the rounded
threshold, so the claim's "status is ABOVE if TCB ≥ threshold" (with
"threshold" the rounded value) is false at this input. -/
theorem claim_C6_counterexample :
    (getAapThresholds (1/60) 38 false (5001/1000)).phototherapy.threshold =
      ThresholdValue.num 5 ∧
    (5 : ℚ) ≤ 5001/1000 ∧
    (getAapThresholds (1/60) 38 false (5001/1000)).phototherapy.status =
      ThresholdStatus.below ∧
    ThresholdStatus.below ≠ ThresholdStatus.above := by
  refine ⟨?_, by norm_num, ?_, by decide⟩ <;>
    norm_num [getAapThresholds, linearInterpolate, interpolateSegment, List.findIdx_cons,
      Bool.cond_decide, aapPlData.lowerRisk, aapDvetData.lowerRisk, toFixed2]

/-- C6 amended: for every valid input with gestational age decimal ≥ 35
weeks, the AAP curve pair is selected as claimed (≥ 38 weeks: lower-risk
without risk factors, medium-risk with; 35–38 weeks: medium-risk without,
higher-risk with); for each family the reported threshold is the curve
interpolated at hours-of-life rounded to 2 decimal places, while the status
is ABOVE iff TCB ≥ the *unrounded* interpolated value, else BELOW (boundary
inclusive). -/
theorem claim_C6_aap_selection (i : CalculationInput) (r : CalculationResult) (b m : ℕ)
    (hb : parseDateTime (formatDateTime i.birthDateTime) = some b)
    (hm : parseDateTime (formatDateTime i.measurementDateTime) = some m)
    (hr : calculateBilirubinRisk i = some r)
    (hage : 35 ≤ i.gestationalWeeks + i.gestationalDays / 7) :
    (let hol : ℚ := ((m : ℚ) - (b : ℚ)) / 60
     let aog := i.gestationalWeeks + i.gestationalDays / 7
     let plCurve :=
       if 38 ≤ aog then
         (if i.hasRiskFactors then aapPlData.mediumRisk else aapPlData.lowerRisk)
       else
         (if i.hasRiskFactors then aapPlData.higherRisk else aapPlData.mediumRisk)
     let dvetCurve :=
       if 38 ≤ aog then
         (if i.hasRiskFactors then aapDvetData.mediumRisk else aapDvetData.lowerRisk)
       else
         (if i.hasRiskFactors then aapDvetData.higherRisk else aapDvetData.mediumRisk)
     r.phototherapy.threshold =
       ThresholdValue.num (toFixed2 (linearInterpolate plCurve hol)) ∧
     r.phototherapy.status =
       (if linearInterpolate plCurve hol ≤ i.tcbValue then ThresholdStatus.above
        else ThresholdStatus.below) ∧
     r.exchangeTransfusion.threshold =
       ThresholdValue.num (toFixed2 (linearInterpolate dvetCurve hol)) ∧
     r.exchangeTransfusion.status =
       (if linearInterpolate dvetCurve hol ≤ i.tcbValue then ThresholdStatus.above
        else ThresholdStatus.below)) := by
  obtain ⟨hval, b2, m2, hb2, hm2, hord, hreq⟩ := (calculateBilirubinRisk_eq_some i r).mp hr
  rw [hb] at hb2
  rw [hm] at hm2
  injection hb2 with hb3
  injection hm2 with hm3
  subst hb3
  subst hm3
  subst hreq
  intro hol aog plCurve dvetCurve
  have hthr : (assembleResult i b m).phototherapy =
        (getAapThresholds hol aog i.hasRiskFactors i.tcbValue).phototherapy ∧
      (assembleResult i b m).exchangeTransfusion =
        (getAapThresholds hol aog i.hasRiskFactors i.tcbValue).exchangeTransfusion := by
    constructor <;> simp only [assembleResult, if_pos hage]
  rw [hthr.1, hthr.2]
  rw [getAapThresholds]
  exact ⟨rfl, rfl, rfl, rfl⟩

/-- Witness for C6 (amended) at `exampleInput38`. -/
theorem claim_C6_aap_selection_witness :
    (parseDateTime (formatDateTime exampleInput38.birthDateTime) = some 1064435640 ∧
     parseDateTime (formatDateTime exampleInput38.measurementDateTime) = some 1064437080 ∧
     calculateBilirubinRisk exampleInput38 =
       some (assembleResult exampleInput38 1064435640 1064437080) ∧
     35 ≤ exampleInput38.gestationalWeeks + exampleInput38.gestationalDays / 7) ∧
    (let hol : ℚ := (((1064437080:ℕ) : ℚ) - ((1064435640:ℕ) : ℚ)) / 60
     let aog := exampleInput38.gestationalWeeks + exampleInput38.gestationalDays / 7
     let plCurve :=
       if 38 ≤ aog then
         (if exampleInput38.hasRiskFactors then aapPlData.mediumRisk else aapPlData.lowerRisk)
       else
         (if exampleInput38.hasRiskFactors then aapPlData.higherRisk else aapPlData.mediumRisk)
     let dvetCurve :=
       if 38 ≤ aog then
         (if exampleInput38.hasRiskFactors then aapDvetData.mediumRisk
          else aapDvetData.lowerRisk)
       else
         (if exampleInput38.hasRiskFactors then aapDvetData.higherRisk
          else aapDvetData.mediumRisk)
     (assembleResult exampleInput38 1064435640 1064437080).phototherapy.threshold =
       ThresholdValue.num (toFixed2 (linearInterpolate plCurve hol)) ∧
     (assembleResult exampleInput38 1064435640 1064437080).phototherapy.status =
       (if linearInterpolate plCurve hol ≤ exampleInput38.tcbValue then ThresholdStatus.above
        else ThresholdStatus.below) ∧
     (assembleResult exampleInput38 1064435640 1064437080).exchangeTransfusion.threshold =
       ThresholdValue.num (toFixed2 (linearInterpolate dvetCurve hol)) ∧
     (assembleResult exampleInput38 1064435640 1064437080).exchangeTransfusion.status =
       (if linearInterpolate dvetCurve hol ≤ exampleInput38.tcbValue then ThresholdStatus.above
        else ThresholdStatus.below)) := by
  refine ⟨⟨by decide, by decide, exampleInput38_calc, by norm_num [exampleInput38]⟩, ?_⟩
  exact claim_C6_aap_selection exampleInput38 _ 1064435640 1064437080 (by decide) (by decide)
    exampleInput38_calc (by norm_num [exampleInput38])

/-- The engine's result depends on the birth timestamp text only through its
emptiness and its normalized form. -/
theorem calc_congr_birth (i : CalculationInput) (s1 s2 : String)
    (h1 : ¬ s1 = "") (h2 : ¬ s2 = "") (hfmt : formatDateTime s1 = formatDateTime s2) :
    calculateBilirubinRisk { i with birthDateTime := s1 } =
      calculateBilirubinRisk { i with birthDateTime := s2 } := by
  rw [calculateBilirubinRisk, calculateBilirubinRisk]
  dsimp only
  by_cases hrest : i.measurementDateTime = "" ∨ i.tcbValue = 0 ∨ i.gestationalWeeks = 0
  · rw [if_pos (Or.inr hrest), if_pos (Or.inr hrest)]
  · have hn1 : ¬ (s1 = "" ∨ i.measurementDateTime = "" ∨ i.tcbValue = 0 ∨
        i.gestationalWeeks = 0) := by
      rintro (h | h)
      · exact h1 h
      · exact hrest h
    have hn2 : ¬ (s2 = "" ∨ i.measurementDateTime = "" ∨ i.tcbValue = 0 ∨
        i.gestationalWeeks = 0) := by
      rintro (h | h)
      · exact h2 h
      · exact hrest h
    rw [if_neg hn1, if_neg hn2, hfmt]
    rfl

/-- The engine's result depends on the measurement timestamp text only
through its emptiness and its normalized form. -/
theorem calc_congr_meas (i : CalculationInput) (s1 s2 : String)
    (h1 : ¬ s1 = "") (h2 : ¬ s2 = "") (hfmt : formatDateTime s1 = formatDateTime s2) :
    calculateBilirubinRisk { i with measurementDateTime := s1 } =
      calculateBilirubinRisk { i with measurementDateTime := s2 } := by
  rw [calculateBilirubinRisk, calculateBilirubinRisk]
  dsimp only
  by_cases hrest : i.birthDateTime = "" ∨ i.tcbValue = 0 ∨ i.gestationalWeeks = 0
  · have hp : ∀ s : String, i.birthDateTime = "" ∨ s = "" ∨ i.tcbValue = 0 ∨
        i.gestationalWeeks = 0 := by
      intro s
      rcases hrest with h | h
      · exact Or.inl h
      · exact Or.inr (Or.inr h)
    rw [if_pos (hp s1), if_pos (hp s2)]
  · have hn : ∀ s : String, ¬ s = "" → ¬ (i.birthDateTime = "" ∨ s = "" ∨ i.tcbValue = 0 ∨
        i.gestationalWeeks = 0) := by
      intro s hs
      rintro (h | h | h)
      · exact hrest (Or.inl h)
      · exact hs h
      · exact hrest (Or.inr h)
    rw [if_neg (hn s1 h1), if_neg (hn s2 h2), hfmt]
    rfl

/-- The three timestamp shapes of the round-trip property. -/
def timestampShapes : List String :=
  ["2024/01/01 - 10:00", "2024-01-01 10:00", "2024-01-01T10:00"]

/-- C7: the three timestamp texts all normalize to the same string and parse
to the identical instant, so substituting any of them for the birth (or
measurement) timestamp, with all other fields fixed, yields identical
hours-of-life. -/
theorem claim_C7_normalization :
    (∀ s ∈ timestampShapes, formatDateTime s = "2024-01-01T10:00") ∧
    (∀ s ∈ timestampShapes, parseDateTime (formatDateTime s) = some 1064435640) ∧
    (∀ i : CalculationInput, ∀ s1 ∈ timestampShapes, ∀ s2 ∈ timestampShapes,
      (calculateBilirubinRisk { i with birthDateTime := s1 }).map CalculationResult.hol =
        (calculateBilirubinRisk { i with birthDateTime := s2 }).map CalculationResult.hol ∧
      (calculateBilirubinRisk { i with measurementDateTime := s1 }).map CalculationResult.hol =
        (calculateBilirubinRisk { i with measurementDateTime := s2 }).map
          CalculationResult.hol) := by
  have hfmt : ∀ s ∈ timestampShapes, formatDateTime s = "2024-01-01T10:00" := by
    intro s hs
    fin_cases hs <;> decide
  refine ⟨hfmt, ?_, ?_⟩
  · intro s hs
    rw [hfmt s hs]
    decide
  · intro i s1 hs1 s2 hs2
    have hne : ∀ s ∈ timestampShapes, ¬ s = "" := by
      intro s hs
      fin_cases hs <;> decide
    have heq : formatDateTime s1 = formatDateTime s2 := by
      rw [hfmt s1 hs1, hfmt s2 hs2]
    exact ⟨by rw [calc_congr_birth i s1 s2 (hne s1 hs1) (hne s2 hs2) heq],
      by rw [calc_congr_meas i s1 s2 (hne s1 hs1) (hne s2 hs2) heq]⟩

/-- Witness for C7: substituting the slash shape for the ISO shape in
`exampleInput38`'s birth timestamp preserves the hours-of-life. -/
theorem claim_C7_normalization_witness :
    ("2024/01/01 - 10:00" ∈ timestampShapes ∧ "2024-01-01T10:00" ∈ timestampShapes) ∧
    ((calculateBilirubinRisk { exampleInput38 with birthDateTime := "2024/01/01 - 10:00" }).map
        CalculationResult.hol =
      (calculateBilirubinRisk { exampleInput38 with birthDateTime := "2024-01-01T10:00" }).map
        CalculationResult.hol) := by
  refine ⟨⟨by simp [timestampShapes], by simp [timestampShapes]⟩, ?_⟩
  exact (claim_C7_normalization.2.2 exampleInput38
    "2024/01/01 - 10:00" (by simp [timestampShapes])
    "2024-01-01T10:00" (by simp [timestampShapes])).1

/-- C10: two valid inputs that agree on TCB, gestational weeks, gestational
days and the risk-factor flag, with gestational age decimal < 35 weeks, and
differ only in their (valid) timestamps, produce identical phototherapy and
exchange-transfusion results and identical Bhutani zones: the Maisels path
never depends on hours-of-life. -/
theorem claim_C10_maisels_time_independence (i1 i2 : CalculationInput)
    (r1 r2 : CalculationResult)
    (h1 : calculateBilirubinRisk i1 = some r1)
    (h2 : calculateBilirubinRisk i2 = some r2)
    (htcb : i1.tcbValue = i2.tcbValue)
    (hw : i1.gestationalWeeks = i2.gestationalWeeks)
    (hd : i1.gestationalDays = i2.gestationalDays)
    (_hrf : i1.hasRiskFactors = i2.hasRiskFactors)
    (hage : i1.gestationalWeeks + i1.gestationalDays / 7 < 35) :
    r1.phototherapy = r2.phototherapy ∧
    r1.exchangeTransfusion = r2.exchangeTransfusion ∧
    r1.bhutaniZone = r2.bhutaniZone := by
  obtain ⟨hval1, b1, m1, hb1, hm1, hord1, hreq1⟩ := (calculateBilirubinRisk_eq_some i1 r1).mp h1
  obtain ⟨hval2, b2, m2, hb2, hm2, hord2, hreq2⟩ := (calculateBilirubinRisk_eq_some i2 r2).mp h2
  subst hreq1
  subst hreq2
  have hage2 : i2.gestationalWeeks + i2.gestationalDays / 7 < 35 := by
    rw [← hw, ← hd]
    exact hage
  have h35₁ : ¬ 35 ≤ i1.gestationalWeeks + i1.gestationalDays / 7 := not_le.mpr hage
  have h35₂ : ¬ 35 ≤ i2.gestationalWeeks + i2.gestationalDays / 7 := not_le.mpr hage2
  refine ⟨?_, ?_, ?_⟩
  · simp only [assembleResult, if_neg h35₁, if_neg h35₂, hw, hd, htcb]
  · simp only [assembleResult, if_neg h35₁, if_neg h35₂, hw, hd, htcb]
  · simp only [assembleResult, if_pos hage, if_pos hage2]

/-- A second concrete valid preterm input: same clinical fields as
`exampleInput27` but measured 48 hours after birth. -/
def exampleInput27b : CalculationInput :=
  ⟨"2024-01-01T10:00", "2024-01-03T10:00", 5.5, 27, 0, false⟩

/-- The engine succeeds on `exampleInput27b`. -/
theorem exampleInput27b_calc :
    calculateBilirubinRisk exampleInput27b =
      some (assembleResult exampleInput27b 1064435640 1064438520) := by
  rw [calculateBilirubinRisk_eq_some]
  refine ⟨?_, 1064435640, 1064438520, by decide, by decide, by decide, rfl⟩
  rintro (h | h | h | h)
  · exact absurd h (by decide)
  · exact absurd h (by decide)
  · norm_num [exampleInput27b] at h
  · norm_num [exampleInput27b] at h

/-- Witness for C10: `exampleInput27` and `exampleInput27b` differ only in
the measurement timestamp (24 vs 48 hours of life) and get identical Maisels
results and zones. -/
theorem claim_C10_maisels_time_independence_witness :
    (calculateBilirubinRisk exampleInput27 =
        some (assembleResult exampleInput27 1064435640 1064437080) ∧
      calculateBilirubinRisk exampleInput27b =
        some (assembleResult exampleInput27b 1064435640 1064438520) ∧
      exampleInput27.tcbValue = exampleInput27b.tcbValue ∧
      exampleInput27.gestationalWeeks = exampleInput27b.gestationalWeeks ∧
      exampleInput27.gestationalDays = exampleInput27b.gestationalDays ∧
      exampleInput27.hasRiskFactors = exampleInput27b.hasRiskFactors ∧
      exampleInput27.gestationalWeeks + exampleInput27.gestationalDays / 7 < 35) ∧
    ((assembleResult exampleInput27 1064435640 1064437080).phototherapy =
        (assembleResult exampleInput27b 1064435640 1064438520).phototherapy ∧
      (assembleResult exampleInput27 1064435640 1064437080).exchangeTransfusion =
        (assembleResult exampleInput27b 1064435640 1064438520).exchangeTransfusion ∧
      (assembleResult exampleInput27 1064435640 1064437080).bhutaniZone =
        (assembleResult exampleInput27b 1064435640 1064438520).bhutaniZone) := by
  refine ⟨⟨exampleInput27_calc, exampleInput27b_calc, rfl, rfl, rfl, rfl,
    by norm_num [exampleInput27]⟩, ?_⟩
  exact claim_C10_maisels_time_independence exampleInput27 exampleInput27b _ _
    exampleInput27_calc exampleInput27b_calc rfl rfl rfl rfl
    (by norm_num [exampleInput27])
